import Mathlib

/-!
Shallow embedding of the ez_autoclicker program (src/main.rs): the shared
session state (`AppState`), the key-sequence parser, the mode-transition
helper `set_mode` and the hotkey handlers built on it, the two
token-to-key resolution functions (`send_key`, `map_key_str_to_enigo_key`),
and one tick of the background action thread's polling loop (`schedTick`).
Time (`Instant`) is modelled as a natural number of milliseconds; the
device sink (`enigo`) is modelled by the list of device events a tick emits.
-/

namespace EzAutoclicker

/-- `enum ActiveMode` from src/main.rs. -/
inductive ActiveMode where
  | None
  | Clicking
  | KeystrokeInjection
  deriving DecidableEq, Repr

/-- The platform key type (`enigo::Key`): only the constructors the program
uses. `Layout c` carries an arbitrary character. -/
inductive EnigoKey where
  | Space
  | Return
  | Tab
  | Backspace
  | Escape
  | UpArrow
  | DownArrow
  | LeftArrow
  | RightArrow
  | Shift
  | Control
  | Alt
  | Meta
  | CapsLock
  | Delete
  | Home
  | End
  | PageUp
  | PageDown
  | Layout (c : Char)
  deriving DecidableEq, Repr

/-- `enum ActionType` from src/main.rs. -/
inductive ActionType where
  | Click
  | KeyPress (key : String)
  deriving DecidableEq, Repr

/-- `struct AppState` from src/main.rs; `last_action : Instant` becomes a
natural-number timestamp. -/
structure AppState where
  interval_ms : Nat
  active_mode : ActiveMode
  last_action : Nat
  status : String
  log : String
  key_to_inject : String
  current_key_index : Nat
  current_key_display : String
  parsed_keys : List String
  hold_mode : Bool
  deriving DecidableEq, Repr

/-- `str::split(',')` over the character list: the comma-delimited segments in
input order, empty segments included (splitting the empty string yields one
empty segment, as in Rust). -/
def splitOnComma : List Char → List (List Char)
  | [] => [[]]
  | c :: rest =>
    let r := splitOnComma rest
    if c = ',' then [] :: r else (c :: r.headI) :: r.tail

/-- `str::trim`: drop leading and trailing whitespace characters. -/
def trimChars (l : List Char) : List Char :=
  ((l.dropWhile Char.isWhitespace).reverse.dropWhile Char.isWhitespace).reverse

/-- The token pipeline of `AppState::parse_key_sequence`:
`self.key_to_inject.split(',').map(|s| s.trim().to_string()).filter(|s| !s.is_empty()).collect()`. -/
def tokenize (s : String) : List String :=
  (((splitOnComma s.data).map (fun seg => String.mk (trimChars seg))).filter
    (fun t => !t.isEmpty))

/-- `AppState::parse_key_sequence`: overwrite `parsed_keys` with the
tokenization of the raw text field. -/
def parse_key_sequence (st : AppState) : AppState :=
  { st with parsed_keys := tokenize st.key_to_inject }

/-- `AppState::set_mode` from src/main.rs. -/
def set_mode (st : AppState) (mode : ActiveMode) (status : String)
    (log_message : String) (now : Nat) : AppState :=
  let st' := { st with
    active_mode := mode
    status := status
    log := st.log ++ log_message
    last_action := now }
  if mode = ActiveMode.None then
    { st' with current_key_display := "" }
  else if mode = ActiveMode.KeystrokeInjection ∧ ¬st.parsed_keys.isEmpty then
    { st' with current_key_display := st.parsed_keys.headI }
  else
    st'

/-- The F5 handler of `start_hotkey_thread` (the UI button runs the same
logic): start keystroke injection only when `parsed_keys` is non-empty,
otherwise append one rejection line to the log. -/
def startInject (st : AppState) (now : Nat) : AppState :=
  if !st.parsed_keys.isEmpty then
    let keys := st.key_to_inject
    let log_message := "Started injecting keys '" ++ keys ++ "' (F5)\n"
    let st' := set_mode st ActiveMode.KeystrokeInjection "Injecting keystrokes..."
      log_message now
    { st' with current_key_index := 0 }
  else
    { st with log := st.log ++ "Cannot inject empty key sequence!\n" }

/-- The F7 handler of `start_hotkey_thread`: stop all actions. -/
def stopAction (st : AppState) (now : Nat) : AppState :=
  set_mode st ActiveMode.None "Stopped" "Stopped all actions! (F7)\n" now

/-- `str::to_lowercase` (adequate for the ASCII key names the tables match). -/
def toLowerStr (s : String) : String :=
  String.mk (s.data.map Char.toLower)

/-- `AutoClickerApp::send_key`, as the platform key it taps (`key_click`):
`none` when the function performs no call (empty token). -/
def send_key (key_str : String) : Option EnigoKey :=
  match toLowerStr key_str with
  | "space" => some EnigoKey.Space
  | "enter" | "return" => some EnigoKey.Return
  | "tab" => some EnigoKey.Tab
  | "backspace" | "back" => some EnigoKey.Backspace
  | "esc" | "escape" => some EnigoKey.Escape
  | "up" => some EnigoKey.UpArrow
  | "down" => some EnigoKey.DownArrow
  | "left" => some EnigoKey.LeftArrow
  | "right" => some EnigoKey.RightArrow
  | "shift" => some EnigoKey.Shift
  | "control" | "ctrl" => some EnigoKey.Control
  | "alt" => some EnigoKey.Alt
  | "win" | "windows" | "meta" => some EnigoKey.Meta
  | "caps" | "capslock" => some EnigoKey.CapsLock
  | "delete" | "del" => some EnigoKey.Delete
  | "home" => some EnigoKey.Home
  | "end" => some EnigoKey.End
  | "pageup" | "pgup" => some EnigoKey.PageUp
  | "pagedown" | "pgdn" => some EnigoKey.PageDown
  | _ =>
    match key_str.data with
    | [] => none
    | c :: _ => some (EnigoKey.Layout c)

/-- `map_key_str_to_enigo_key` from src/main.rs. -/
def map_key_str_to_enigo_key (key_str : String) : Option EnigoKey :=
  match toLowerStr key_str with
  | "space" => some EnigoKey.Space
  | "enter" | "return" => some EnigoKey.Return
  | "tab" => some EnigoKey.Tab
  | "backspace" | "back" => some EnigoKey.Backspace
  | "esc" | "escape" => some EnigoKey.Escape
  | "up" => some EnigoKey.UpArrow
  | "down" => some EnigoKey.DownArrow
  | "left" => some EnigoKey.LeftArrow
  | "right" => some EnigoKey.RightArrow
  | "shift" => some EnigoKey.Shift
  | "control" | "ctrl" => some EnigoKey.Control
  | "alt" => some EnigoKey.Alt
  | "win" | "windows" | "meta" => some EnigoKey.Meta
  | "caps" | "capslock" => some EnigoKey.CapsLock
  | "delete" | "del" => some EnigoKey.Delete
  | "home" => some EnigoKey.Home
  | "end" => some EnigoKey.End
  | "pageup" | "pgup" => some EnigoKey.PageUp
  | "pagedown" | "pgdn" => some EnigoKey.PageDown
  | _ =>
    match key_str.data with
    | [] => none
    | c :: _ => some (EnigoKey.Layout c)

/-- The scheduler-local mutable variables of `start_action_thread`:
`next_action_time`, `currently_held_action`, `release_time`. -/
structure SchedState where
  next_action_time : Nat
  currently_held_action : Option ActionType
  release_time : Option Nat
  deriving DecidableEq, Repr

/-- What one iteration of the `start_action_thread` loop produces: the
shared state after the locked section, the scheduler-local variables, and
the two side-effect slots `release_held_action_type` /
`action_to_perform_this_loop`. -/
structure TickResult where
  state : AppState
  next_action_time : Nat
  currently_held_action : Option ActionType
  release_time : Option Nat
  released : Option ActionType
  performed : Option ActionType
  deriving DecidableEq, Repr

/-- One iteration of the `start_action_thread` polling loop (src/main.rs,
lines 391-531): the timer-based release check, then the mode evaluation
under the state lock. -/
def schedTick (st : AppState) (sch : SchedState) (now : Nat) : TickResult :=
  let interval := st.interval_ms
  -- "Check if a held action should be released based on time"
  let step1 : Option ActionType × Option Nat × Option ActionType :=
    match sch.release_time, sch.currently_held_action with
    | some r, some held =>
      if now ≥ r then (none, none, some held)
      else (some held, some r, none)
    | some r, none => (none, some r, none)
    | none, h => (h, none, none)
  let held1 := step1.1
  let rt1 := step1.2.1
  let rel1 := step1.2.2
  match st.active_mode with
  | ActiveMode.None =>
    -- "If stopped, release anything being held"
    match held1 with
    | some held =>
      { state := st, next_action_time := sch.next_action_time,
        currently_held_action := none, release_time := none,
        released := some held, performed := none }
    | none =>
      { state := st, next_action_time := sch.next_action_time,
        currently_held_action := none, release_time := rt1,
        released := rel1, performed := none }
  | ActiveMode.Clicking =>
    if st.hold_mode then
      match held1 with
      | none =>
        { state := st, next_action_time := sch.next_action_time,
          currently_held_action := some ActionType.Click
          release_time := some (now + interval),
          released := rel1, performed := some ActionType.Click }
      | some held =>
        -- "If already holding, do nothing until release_time"
        { state := st, next_action_time := sch.next_action_time,
          currently_held_action := some held, release_time := rt1,
          released := rel1, performed := none }
    else
      let rel2 := match held1 with | some held => some held | none => rel1
      let rt2 := match held1 with | some _ => none | none => rt1
      if now ≥ sch.next_action_time then
        { state := st, next_action_time := now + interval,
          currently_held_action := none, release_time := rt2,
          released := rel2, performed := some ActionType.Click }
      else
        { state := st, next_action_time := sch.next_action_time,
          currently_held_action := none, release_time := rt2,
          released := rel2, performed := none }
  | ActiveMode.KeystrokeInjection =>
    if st.parsed_keys.isEmpty then
      match held1 with
      | some held =>
        { state := st, next_action_time := sch.next_action_time,
          currently_held_action := none, release_time := none,
          released := some held, performed := none }
      | none =>
        { state := st, next_action_time := sch.next_action_time,
          currently_held_action := none, release_time := rt1,
          released := rel1, performed := none }
    else if st.hold_mode then
      let len := st.parsed_keys.length
      let idx := st.current_key_index % len
      let key := st.parsed_keys.getD idx ""
      let next_key_action := ActionType.KeyPress key
      if held1 ≠ some next_key_action then
        let rel2 := match held1 with | some held => some held | none => rel1
        -- "Advance index ONLY when successfully starting to hold a new key";
        -- the display is updated in both branches (line 472)
        { state := { st with current_key_index := (idx + 1) % len,
                             current_key_display := key },
          next_action_time := sch.next_action_time,
          currently_held_action := some next_key_action,
          release_time := some (now + interval),
          released := rel2, performed := some next_key_action }
      else
        { state := { st with current_key_display := key },
          next_action_time := sch.next_action_time,
          currently_held_action := held1, release_time := rt1,
          released := rel1, performed := none }
    else
      let rel2 := match held1 with | some held => some held | none => rel1
      let rt2 := match held1 with | some _ => none | none => rt1
      if now ≥ sch.next_action_time then
        let len := st.parsed_keys.length
        let idx := st.current_key_index % len
        let key := st.parsed_keys.getD idx ""
        { state := { st with current_key_display := key,
                             current_key_index := (idx + 1) % len },
          next_action_time := now + interval,
          currently_held_action := none, release_time := rt2,
          released := rel2, performed := some (ActionType.KeyPress key) }
      else
        { state := st, next_action_time := sch.next_action_time,
          currently_held_action := none, release_time := rt2,
          released := rel2, performed := none }

/-- The device calls a tick makes, in order. -/
inductive DeviceEvent where
  | mouseUp
  | mouseDown
  | mouseClick
  | keyUp (k : EnigoKey)
  | keyDown (k : EnigoKey)
  | keyClick (k : EnigoKey)
  deriving DecidableEq, Repr

/-- Whether a device event releases a held action (`mouse_up` / `key_up`). -/
def DeviceEvent.isRelease : DeviceEvent → Bool
  | DeviceEvent.mouseUp => true
  | DeviceEvent.keyUp _ => true
  | _ => false

/-- The "Perform release outside of lock" block (src/main.rs lines 496-505). -/
def releaseEvents : Option ActionType → List DeviceEvent
  | none => []
  | some ActionType.Click => [DeviceEvent.mouseUp]
  | some (ActionType.KeyPress key_str) =>
    match map_key_str_to_enigo_key key_str with
    | some key => [DeviceEvent.keyUp key]
    | none => []

/-- The "Perform action outside of lock" block (src/main.rs lines 508-531):
whether the action is a press (down) or a discrete click/tap is decided by
`currently_held_action.is_some()` after the locked section. -/
def performEvents (heldAfter : Option ActionType) : Option ActionType → List DeviceEvent
  | none => []
  | some ActionType.Click =>
    if heldAfter.isSome then [DeviceEvent.mouseDown] else [DeviceEvent.mouseClick]
  | some (ActionType.KeyPress key_str) =>
    if heldAfter.isSome then
      match map_key_str_to_enigo_key key_str with
      | some key => [DeviceEvent.keyDown key]
      | none => []
    else
      match send_key key_str with
      | some key => [DeviceEvent.keyClick key]
      | none => []

/-- The device events one tick emits, in the order the loop body performs
them: the release block first, then the action block. -/
def emittedEvents (r : TickResult) : List DeviceEvent :=
  releaseEvents r.released ++ performEvents r.currently_held_action r.performed

/-- The key a tick's perform slot fires in non-hold mode (a discrete tap). -/
def firedKeys : Option ActionType → List String
  | some (ActionType.KeyPress k) => [k]
  | _ => []

/-- The display value shown by a tick that fires a key. -/
def shownKeys (r : TickResult) : List String :=
  match r.performed with
  | some (ActionType.KeyPress _) => [r.state.current_key_display]
  | _ => []

/-- The trace of a multi-tick run: final states plus the fired and
displayed key tokens in order. -/
structure FireRun where
  state : AppState
  sched : SchedState
  fired : List String
  shown : List String
  deriving Repr

/-- Run one iteration of the `start_action_thread` loop for each time in
`ts` (the successive values of `now`, assumed monotone in practice but
unconstrained here), collecting the fired and displayed key tokens. -/
def runTicks : AppState → SchedState → List Nat → FireRun
  | st, sch, [] => ⟨st, sch, [], []⟩
  | st, sch, now :: rest =>
    let r := schedTick st sch now
    let after := runTicks r.state
      ⟨r.next_action_time, r.currently_held_action, r.release_time⟩ rest
    ⟨after.state, after.sched, firedKeys r.performed ++ after.fired,
      shownKeys r ++ after.shown⟩

/-- A concrete session state used by the witnesses: injecting "w, s",
hold mode off, cursor at the start. -/
def wState : AppState :=
  { interval_ms := 100, active_mode := ActiveMode.KeystrokeInjection,
    last_action := 0, status := "Injecting keystrokes...", log := "",
    key_to_inject := "w, s", current_key_index := 0, current_key_display := "w",
    parsed_keys := ["w", "s"], hold_mode := false }

/-- A concrete scheduler-local state: nothing held, no pending release. -/
def wSched : SchedState :=
  { next_action_time := 0, currently_held_action := none, release_time := none }

/-- A scheduler-local state holding a click, release armed at time 100. -/
def schHeldClick : SchedState where
  next_action_time := 0
  currently_held_action := some ActionType.Click
  release_time := some 100

/-- A scheduler-local state holding the key "w", release armed at time 100. -/
def schHeldW : SchedState where
  next_action_time := 0
  currently_held_action := some (ActionType.KeyPress "w")
  release_time := some 100

/-- A concrete idle state whose raw key text tokenizes to the empty list. -/
def stEmpty : AppState :=
  { interval_ms := 1000, active_mode := ActiveMode.None, last_action := 0,
    status := "Stopped", log := "", key_to_inject := " , ",
    current_key_index := 0, current_key_display := "", parsed_keys := [],
    hold_mode := false }

/-- A concrete injecting state holding a previously valid one-token sequence
while the raw text field has been cleared. -/
def stC7 : AppState :=
  { interval_ms := 1000, active_mode := ActiveMode.KeystrokeInjection,
    last_action := 0, status := "Injecting keystrokes...", log := "",
    key_to_inject := "", current_key_index := 0, current_key_display := "w",
    parsed_keys := ["w"], hold_mode := false }

/-- A concrete idle state with timestamp 0, used against the stop claim. -/
def stC8 : AppState :=
  { interval_ms := 1000, active_mode := ActiveMode.None, last_action := 0,
    status := "Stopped", log := "", key_to_inject := "w, s",
    current_key_index := 0, current_key_display := "", parsed_keys := ["w", "s"],
    hold_mode := false }

/-- Every event of the release block is a release. -/
theorem releaseEvents_all (o : Option ActionType) :
    (releaseEvents o).all DeviceEvent.isRelease = true := by
  rcases o with _ | a
  · rfl
  · rcases a with _ | k
    · rfl
    · rcases hk : map_key_str_to_enigo_key k with _ | key <;>
        simp [releaseEvents, hk, DeviceEvent.isRelease]

/-- No event of the action block is a release. -/
theorem performEvents_all (h : Option ActionType) (o : Option ActionType) :
    (performEvents h o).all (fun e => !e.isRelease) = true := by
  rcases o with _ | a
  · rfl
  · rcases a with _ | k
    · simp only [performEvents]
      split_ifs <;> simp [DeviceEvent.isRelease]
    · simp only [performEvents]
      split_ifs
      · rcases hk : map_key_str_to_enigo_key k with _ | key <;>
          simp [hk, DeviceEvent.isRelease]
      · rcases hk : send_key k with _ | key <;>
          simp [hk, DeviceEvent.isRelease]

/-- A tick in `KeystrokeInjection` mode with an empty parsed sequence: no
action is performed, the shared state is untouched, nothing stays held, and
whatever was held is released. -/
theorem tick_empty_keys (st : AppState) (sch : SchedState) (now : Nat)
    (hm : st.active_mode = ActiveMode.KeystrokeInjection)
    (he : st.parsed_keys = []) :
    (schedTick st sch now).performed = none ∧
    (schedTick st sch now).state = st ∧
    (schedTick st sch now).currently_held_action = none ∧
    (schedTick st sch now).released = sch.currently_held_action := by
  have hie : st.parsed_keys.isEmpty = true := by rw [he]; rfl
  rcases hrt : sch.release_time with _ | r <;>
    rcases hh : sch.currently_held_action with _ | a <;>
    simp [schedTick, hm, hie, hrt, hh]
  split_ifs <;> simp

/-- A tick in non-hold `KeystrokeInjection` mode with a non-empty sequence,
nothing held, taken at or after the scheduled time, fires the key at the
cursor, advances the cursor, updates the display and re-arms the cadence. -/
theorem fire_tick_eq (st : AppState) (sch : SchedState) (now : Nat)
    (hm : st.active_mode = ActiveMode.KeystrokeInjection) (hh : st.hold_mode = false)
    (hne : st.parsed_keys ≠ []) (hheld : sch.currently_held_action = none)
    (hnow : now ≥ sch.next_action_time) :
    schedTick st sch now =
      { state := { st with
          current_key_display :=
            st.parsed_keys.getD (st.current_key_index % st.parsed_keys.length) "",
          current_key_index :=
            (st.current_key_index % st.parsed_keys.length + 1) % st.parsed_keys.length },
        next_action_time := now + st.interval_ms,
        currently_held_action := none,
        release_time := sch.release_time,
        released := none,
        performed := some (ActionType.KeyPress
          (st.parsed_keys.getD (st.current_key_index % st.parsed_keys.length) "")) } := by
  have hie : st.parsed_keys.isEmpty = false := by
    simpa [List.isEmpty_iff] using hne
  rcases hrt : sch.release_time with _ | r <;>
    simp [schedTick, hm, hh, hie, hheld, hrt, hnow]

/-- A tick in non-hold `KeystrokeInjection` mode with a non-empty sequence,
nothing held, taken before the scheduled time, changes nothing and performs
nothing. -/
theorem noop_tick_eq (st : AppState) (sch : SchedState) (now : Nat)
    (hm : st.active_mode = ActiveMode.KeystrokeInjection) (hh : st.hold_mode = false)
    (hne : st.parsed_keys ≠ []) (hheld : sch.currently_held_action = none)
    (hnow : ¬now ≥ sch.next_action_time) :
    schedTick st sch now =
      { state := st,
        next_action_time := sch.next_action_time,
        currently_held_action := none,
        release_time := sch.release_time,
        released := none,
        performed := none } := by
  have hie : st.parsed_keys.isEmpty = false := by
    simpa [List.isEmpty_iff] using hne
  rcases hrt : sch.release_time with _ | r <;>
    simp [schedTick, hm, hh, hie, hheld, hrt, hnow]

/-- Arithmetic step for the cursor recurrence. -/
theorem mod_step_aux (len c i : Nat) :
    ((c % len + 1) % len + i) % len = (c + (1 + i)) % len := by
  calc ((c % len + 1) % len + i) % len
      = (c % len + 1 + i) % len := Nat.mod_add_mod _ _ _
    _ = (c % len + (1 + i)) % len := by rw [Nat.add_assoc]
    _ = (c + (1 + i)) % len := Nat.mod_add_mod _ _ _

/-- Invariant of a non-hold injection run started at any in-range cursor,
over an arbitrary sequence of tick times: writing `K` for the number of
discrete fires the run performed, the cursor moves `K` steps modulo the
sequence length and the fired and displayed tokens cycle through the
sequence from the starting cursor; no-op ticks (taken before the cadence
time) change nothing. -/
theorem runTicks_inv : ∀ (ts : List Nat) (st : AppState) (sch : SchedState),
    st.active_mode = ActiveMode.KeystrokeInjection → st.hold_mode = false →
    st.parsed_keys ≠ [] → st.current_key_index < st.parsed_keys.length →
    sch.currently_held_action = none →
    (runTicks st sch ts).state.current_key_index =
        (st.current_key_index + (runTicks st sch ts).fired.length) %
          st.parsed_keys.length ∧
    (runTicks st sch ts).fired =
        (List.range (runTicks st sch ts).fired.length).map (fun i =>
          st.parsed_keys.getD ((st.current_key_index + i) % st.parsed_keys.length) "") ∧
    (runTicks st sch ts).shown = (runTicks st sch ts).fired := by
  intro ts
  induction ts with
  | nil =>
    intro st sch hm hh hne hlt hheld
    simp [runTicks, Nat.mod_eq_of_lt hlt]
  | cons t rest ih =>
    intro st sch hm hh hne hlt hheld
    have hstep : runTicks st sch (t :: rest) =
        ⟨(runTicks _ _ rest).state, (runTicks _ _ rest).sched,
          firedKeys (schedTick st sch t).performed ++
            (runTicks _ _ rest).fired,
          shownKeys (schedTick st sch t) ++
            (runTicks _ _ rest).shown⟩ := rfl
    by_cases hnow : t ≥ sch.next_action_time
    · have hlen : 0 < st.parsed_keys.length := List.length_pos.mpr hne
      have hfire := fire_tick_eq st sch t hm hh hne hheld hnow
      rw [hstep, hfire]
      have hih := ih { st with
          current_key_display :=
            st.parsed_keys.getD (st.current_key_index % st.parsed_keys.length) "",
          current_key_index :=
            (st.current_key_index % st.parsed_keys.length + 1) % st.parsed_keys.length }
        ⟨t + st.interval_ms, none, sch.release_time⟩
        hm hh hne (Nat.mod_lt _ hlen) rfl
      dsimp only at hih ⊢
      obtain ⟨hidx, hfired, hshown⟩ := hih
      simp only [firedKeys, shownKeys, List.cons_append, List.nil_append,
        List.length_cons]
      refine ⟨?_, ?_, ?_⟩
      · rw [hidx]
        rw [mod_step_aux]
        rw [Nat.add_comm 1 _]
      · rw [List.range_succ_eq_map, List.map_cons, List.map_map]
        refine congrArg₂ List.cons (by simp) ?_
        refine hfired.trans ?_
        refine List.map_congr_left fun i _ => ?_
        simp only [Function.comp]
        rw [mod_step_aux, Nat.add_comm 1 i]
      · rw [hshown]
    · have hnoop := noop_tick_eq st sch t hm hh hne hheld hnow
      rw [hstep, hnoop]
      dsimp only
      simp only [firedKeys, shownKeys, List.nil_append]
      exact ih st ⟨sch.next_action_time, none, sch.release_time⟩
        hm hh hne hlt rfl

/-- C9: the key-sequence parser splits on commas, trims each segment, drops
empty segments, preserves order, and never errors (it is a total function);
the three example inputs of the spec evaluate as claimed, every produced
token is non-empty, and for every input the output is exactly the trimmed
comma-delimited segment list with empties removed. -/
theorem c9_parser_correct :
    tokenize "w, s" = ["w", "s"] ∧
    tokenize "" = [] ∧
    tokenize " a ,, b " = ["a", "b"] ∧
    (∀ s : String,
      tokenize s =
        ((splitOnComma s.data).map (fun seg => String.mk (trimChars seg))).filter
          (fun t => !t.isEmpty)) ∧
    (∀ s : String, (tokenize s).all (fun t => !t.isEmpty) = true) := by
  refine ⟨by decide, by decide, by decide, fun s => rfl, fun s => ?_⟩
  simp only [tokenize, List.all_eq_true]
  intro t ht
  exact (List.mem_filter.mp ht).2

/-- C10: the two token-to-key resolution implementations agree on every
token string: the key tapped by the discrete path (`send_key`) is the key
returned by the press/release path (`map_key_str_to_enigo_key`), and both
resolve the empty token to no action. -/
theorem c10_key_resolution_agree :
    (∀ s : String, send_key s = map_key_str_to_enigo_key s) ∧
    send_key "" = none ∧ map_key_str_to_enigo_key "" = none := by
  refine ⟨fun s => rfl, by decide, by decide⟩

/-- C1: the scheduler holds at most one action at a time (the held slot is a
single `Option ActionType`); every tick performs its release block before its
action block (the emitted event list is releases followed by non-releases),
and on a tick whose held target changes from `A` to a different `B`
(including a held click replaced by a held key), the release of `A` and the
press of `B` are both emitted, in that order. -/
theorem c1_hold_exclusivity (st : AppState) (sch : SchedState) (now : Nat)
    (A B : ActionType) :
    (∃ rs ps, emittedEvents (schedTick st sch now) = rs ++ ps ∧
      rs.all DeviceEvent.isRelease = true ∧
      ps.all (fun e => !e.isRelease) = true) ∧
    (sch.currently_held_action = some A →
      (schedTick st sch now).currently_held_action = some B →
      A ≠ B →
      (schedTick st sch now).released = some A ∧
      (schedTick st sch now).performed = some B) := by
  constructor
  · exact ⟨_, _, rfl, releaseEvents_all _, performEvents_all _ _⟩
  · intro hA hB hne
    rcases hrt : sch.release_time with _ | r <;>
      rcases hm : st.active_mode <;>
      rcases hb : st.hold_mode <;>
      simp [schedTick, hm, hb, hA, hrt] at hB ⊢ <;>
      first
        | exact absurd hB hne
        | (split_ifs at hB ⊢ <;> simp_all)

/-- C1 witness: with hold mode on, a tick that switches from a held click to
key injection releases the click and presses the key "w". -/
theorem c1_witness :
    (schedTick { wState with hold_mode := true } schHeldClick 5).released =
      some ActionType.Click ∧
    (schedTick { wState with hold_mode := true } schHeldClick 5).performed =
      some (ActionType.KeyPress "w") :=
  (c1_hold_exclusivity { wState with hold_mode := true } schHeldClick 5
    ActionType.Click (ActionType.KeyPress "w")).2 rfl (by decide) (by decide)

/-- C2: starting non-hold key injection on a non-empty sequence of length
`N` with the cursor reset to 0 and nothing held, a run over any sequence of
tick times that performs `K` discrete fires leaves the cursor at `K mod N`,
and the `K` fired tokens are `seq[0], seq[1 mod N], seq[2 mod N], ...` in
that order; the displayed tokens coincide with the fired ones. -/
theorem c2_cursor_invariant (st : AppState) (sch : SchedState) (ts : List Nat)
    (hm : st.active_mode = ActiveMode.KeystrokeInjection)
    (hh : st.hold_mode = false)
    (hne : st.parsed_keys ≠ [])
    (hc : st.current_key_index = 0)
    (hheld : sch.currently_held_action = none) :
    (runTicks st sch ts).state.current_key_index =
      (runTicks st sch ts).fired.length % st.parsed_keys.length ∧
    (runTicks st sch ts).fired =
      (List.range (runTicks st sch ts).fired.length).map (fun i =>
        st.parsed_keys.getD (i % st.parsed_keys.length) "") ∧
    (runTicks st sch ts).shown = (runTicks st sch ts).fired := by
  have h := runTicks_inv ts st sch hm hh hne
    (by rw [hc]; exact List.length_pos.mpr hne) hheld
  rw [hc] at h
  simpa using h

/-- C2 witness: ticking at times 0, 50, 100, 200 with interval 100 fires
three times (the tick at 50 is a no-op), leaves the cursor at 1 and fires
and displays w, s, w. -/
theorem c2_witness :
    (runTicks wState wSched [0, 50, 100, 200]).state.current_key_index =
      (runTicks wState wSched [0, 50, 100, 200]).fired.length %
        wState.parsed_keys.length ∧
    (runTicks wState wSched [0, 50, 100, 200]).fired =
      (List.range (runTicks wState wSched [0, 50, 100, 200]).fired.length).map
        (fun i => wState.parsed_keys.getD (i % wState.parsed_keys.length) "") ∧
    (runTicks wState wSched [0, 50, 100, 200]).shown =
      (runTicks wState wSched [0, 50, 100, 200]).fired :=
  c2_cursor_invariant wState wSched [0, 50, 100, 200] rfl rfl (by decide) rfl rfl

/-- C3: if hold mode is off while an action is held and the mode is still
`Clicking` or `KeystrokeInjection`, the very next tick releases the held
action and clears the held slot, at any `now`, without waiting for the
armed release time. -/
theorem c3_hold_off_releases_next_tick (st : AppState) (sch : SchedState)
    (now : Nat) (a : ActionType)
    (hh : st.hold_mode = false)
    (hm : st.active_mode = ActiveMode.Clicking ∨
      st.active_mode = ActiveMode.KeystrokeInjection)
    (hheld : sch.currently_held_action = some a) :
    (schedTick st sch now).released = some a ∧
    (schedTick st sch now).currently_held_action = none := by
  rcases hrt : sch.release_time with _ | r <;>
    rcases hm with hm | hm <;>
    simp [schedTick, hm, hh, hheld, hrt] <;>
    split_ifs <;> simp

/-- C3 witness: a held "w" with a release timer armed far in the future is
released at time 5 once hold mode is off. -/
theorem c3_witness :
    (schedTick wState schHeldW 5).released = some (ActionType.KeyPress "w") ∧
    (schedTick wState schHeldW 5).currently_held_action = none :=
  c3_hold_off_releases_next_tick wState schHeldW 5 (ActionType.KeyPress "w")
    rfl (Or.inr rfl) rfl

/-- C4: the key cursor advances exactly once, from `c` to
`(c mod N) + 1 mod N`, on every tick that starts a new key action (a
discrete key fire or a new hold target), and stays unchanged on every tick
that performs no action or performs a click. -/
theorem c4_cursor_advance (st : AppState) (sch : SchedState) (now : Nat) :
    (∀ k : String,
      (schedTick st sch now).performed = some (ActionType.KeyPress k) →
      (schedTick st sch now).state.current_key_index =
        (st.current_key_index % st.parsed_keys.length + 1) %
          st.parsed_keys.length) ∧
    ((schedTick st sch now).performed = none ∨
        (schedTick st sch now).performed = some ActionType.Click →
      (schedTick st sch now).state.current_key_index =
        st.current_key_index) := by
  rcases hrt : sch.release_time with _ | r <;>
    rcases hh : sch.currently_held_action with _ | a <;>
    rcases hm : st.active_mode <;>
    rcases hb : st.hold_mode <;>
    simp [schedTick, hm, hb, hh, hrt] <;>
    split_ifs <;>
    simp_all

/-- C4 witness: a fire at time 0 advances the cursor of `wState` once; a
tick in an idle state leaves it unchanged. -/
theorem c4_witness :
    (schedTick wState wSched 0).state.current_key_index =
      (wState.current_key_index % wState.parsed_keys.length + 1) %
        wState.parsed_keys.length ∧
    (schedTick { wState with active_mode := ActiveMode.None } wSched 0).state.current_key_index =
      { wState with active_mode := ActiveMode.None }.current_key_index :=
  ⟨(c4_cursor_advance wState wSched 0).1 "w" (by decide),
   (c4_cursor_advance { wState with active_mode := ActiveMode.None } wSched 0).2
     (Or.inl (by decide))⟩

/-- C5: a tick in `KeystrokeInjection` mode with an empty parsed sequence
performs no device action, leaves the shared state (cursor included)
untouched, holds nothing afterwards, and releases whatever was held —
the empty sequence is treated like `Idle` for holding purposes, not as an
error. -/
theorem c5_empty_sequence_noop (st : AppState) (sch : SchedState) (now : Nat)
    (hm : st.active_mode = ActiveMode.KeystrokeInjection)
    (he : st.parsed_keys = []) :
    (schedTick st sch now).performed = none ∧
    (schedTick st sch now).state = st ∧
    (schedTick st sch now).currently_held_action = none ∧
    (schedTick st sch now).released = sch.currently_held_action :=
  tick_empty_keys st sch now hm he

/-- C5 witness: in an injecting state whose sequence is empty, a tick at
time 5 fires nothing and releases the held "w". -/
theorem c5_witness :
    (schedTick { stC7 with parsed_keys := [] } schHeldW 5).performed = none ∧
    (schedTick { stC7 with parsed_keys := [] } schHeldW 5).state =
      { stC7 with parsed_keys := [] } ∧
    (schedTick { stC7 with parsed_keys := [] } schHeldW 5).currently_held_action =
      none ∧
    (schedTick { stC7 with parsed_keys := [] } schHeldW 5).released =
      schHeldW.currently_held_action :=
  c5_empty_sequence_noop { stC7 with parsed_keys := [] } schHeldW 5 rfl rfl

/-- C6: requesting start-inject with an empty parsed sequence changes
nothing but the log, to which exactly one rejection line is appended; with
a non-empty sequence it sets the mode to `KeystrokeInjection`, resets the
cursor to 0 and displays the first token. -/
theorem c6_start_inject_guard (st : AppState) (now : Nat) :
    (st.parsed_keys = [] →
      startInject st now =
        { st with log := st.log ++ "Cannot inject empty key sequence!\n" }) ∧
    (st.parsed_keys ≠ [] →
      (startInject st now).active_mode = ActiveMode.KeystrokeInjection ∧
      (startInject st now).current_key_index = 0 ∧
      (startInject st now).current_key_display = st.parsed_keys.headI) := by
  constructor
  · intro he
    simp [startInject, he]
  · intro hne
    have hie : st.parsed_keys.isEmpty = false := by
      simpa [List.isEmpty_iff] using hne
    simp [startInject, set_mode, hie]

/-- C6 witness: start-inject on the empty-sequence state only appends the
rejection line; on "w, s" it switches mode, resets the cursor and shows
"w". -/
theorem c6_witness :
    startInject stEmpty 3 =
      { stEmpty with log := stEmpty.log ++ "Cannot inject empty key sequence!\n" } ∧
    ((startInject wState 3).active_mode = ActiveMode.KeystrokeInjection ∧
      (startInject wState 3).current_key_index = 0 ∧
      (startInject wState 3).current_key_display = wState.parsed_keys.headI) :=
  ⟨(c6_start_inject_guard stEmpty 3).1 rfl,
   (c6_start_inject_guard wState 3).2 (by decide)⟩

/-- C7 counterexample: with a previously valid sequence ["w"] and raw text
whose tokenization is empty, running the parser does replace the sequence
with the empty list, contradicting the claim that it is preserved. -/
theorem c7_counterexample :
    stC7.parsed_keys = ["w"] ∧
    tokenize stC7.key_to_inject = [] ∧
    (parse_key_sequence stC7).parsed_keys = [] :=
  ⟨rfl, by decide, by decide⟩

/-- C7 amended: running the parser on raw text whose tokenization is empty
replaces the previously valid non-empty sequence with the empty list; the
running scheduler then treats the empty sequence as "no valid action
available": in `InjectingKeys` mode it performs nothing and the cursor does
not advance. -/
theorem c7_empty_parse_replaces (st : AppState) (sch : SchedState) (now : Nat)
    (he : tokenize st.key_to_inject = []) :
    (parse_key_sequence st).parsed_keys = [] ∧
    (st.active_mode = ActiveMode.KeystrokeInjection →
      (schedTick (parse_key_sequence st) sch now).performed = none ∧
      (schedTick (parse_key_sequence st) sch now).state.current_key_index =
        st.current_key_index) := by
  refine ⟨he, fun hm => ?_⟩
  have h := tick_empty_keys (parse_key_sequence st) sch now hm he
  exact ⟨h.1, by rw [h.2.1]; rfl⟩

/-- C7 witness: parsing the cleared text of `stC7` empties the sequence and
the next tick fires nothing. -/
theorem c7_witness :
    (parse_key_sequence stC7).parsed_keys = [] ∧
    ((schedTick (parse_key_sequence stC7) wSched 5).performed = none ∧
      (schedTick (parse_key_sequence stC7) wSched 5).state.current_key_index =
        stC7.current_key_index) :=
  ⟨(c7_empty_parse_replaces stC7 wSched 5 (by decide)).1,
   (c7_empty_parse_replaces stC7 wSched 5 (by decide)).2 rfl⟩

/-- C8 counterexample: stopping at time 5 from the idle state `stC8` (whose
`last_action` is 0) changes `last_action`, which is neither the log nor the
status field, so stop-while-idle does not change only log and status. -/
theorem c8_counterexample :
    stC8.active_mode = ActiveMode.None ∧
    (stopAction stC8 5).last_action ≠ stC8.last_action :=
  ⟨rfl, by decide⟩

/-- C8 amended: stopping while already `Idle` (where the displayed key is
already empty, as it is in every state the program reaches in `Idle`)
leaves `current_key_index`, `interval_ms`, the parsed keys, the raw key
text and the hold flag unchanged, and changes only the status, the log
(one line appended) and the `last_action` timestamp. -/
theorem c8_idempotent_stop (st : AppState) (now : Nat)
    (hm : st.active_mode = ActiveMode.None)
    (hd : st.current_key_display = "") :
    stopAction st now =
      { st with status := "Stopped",
                log := st.log ++ "Stopped all actions! (F7)\n",
                last_action := now } := by
  cases st
  simp_all [stopAction, set_mode]

/-- C8 witness: stopping `stC8` at time 7 changes only status, log and
timestamp. -/
theorem c8_witness :
    stopAction stC8 7 =
      { stC8 with status := "Stopped",
                  log := stC8.log ++ "Stopped all actions! (F7)\n",
                  last_action := 7 } :=
  c8_idempotent_stop stC8 7 rfl rfl

end EzAutoclicker
